import Mathlib

/-!
Verification of the news-article-to-graph pipeline (`graph_project.py`).

The development shallowly embeds the two core functions of the program:

* `extract_entities_and_relations` — the linguistic analyzer, operating on a
  `Doc` (the output of the external dependency parser: entity spans plus
  sentence-segmented dependency trees over `Token`s);
* `store_in_graphdb` — the graph materializer, modelled as a pure state
  transformer over a `GraphStore` that also records the trace of store
  operations (`StoreOp`) it performs, mirroring the sequence of
  `graph.delete_all()` / `graph.create(...)` calls.

The interactive URL prompt (`get_article_url`) is embedded as a step
function over one line of user input plus a driver over a list of inputs.
-/

/-- A token of the dependency parse, as exposed by the parser collaborator:
surface text, lemma, dependency-role label, and the index of its head token
within the sentence (the root token points to itself). -/
structure Token where
  text : String
  lemma_ : String
  dep_ : String
  head : Nat
deriving Repr, DecidableEq, Inhabited

/-- A recognized entity span: surface text and category label. -/
structure Ent where
  text : String
  label_ : String
deriving Repr, DecidableEq

/-- Parser output for a whole text: entity spans and sentences of tokens. -/
structure Doc where
  ents : List Ent
  sents : List (List Token)
deriving Repr, DecidableEq

/-- Model of Python's `str.upper()` (character-wise uppercasing). -/
def pyUpper (s : String) : String :=
  String.mk (s.data.map Char.toUpper)

/-- Model of Python's `str.lower()` (character-wise lowercasing). -/
def pyLower (s : String) : String :=
  String.mk (s.data.map Char.toLower)

/-- Model of Python's `str.strip()` (drop leading and trailing
whitespace). -/
def pyStrip (s : String) : String :=
  String.mk
    (((s.data.dropWhile Char.isWhitespace).reverse.dropWhile
        Char.isWhitespace).reverse)

/-- Model of Python's `str.startswith(p)`. -/
def pyStartswith (s p : String) : Bool :=
  p.data.isPrefixOf s.data

/-- Token at index `j` of a sentence (indices produced by `List.range` are
always in bounds; the default is never reached on those calls). -/
def tokAt (sent : List Token) (j : Nat) : Token :=
  sent.getD j default

/-- Indices of the direct syntactic children of token `i`, in document
order (mirrors spaCy's `token.children`; the root's self-link is not a
child edge). -/
def childrenIdx (sent : List Token) (i : Nat) : List Nat :=
  (List.range sent.length).filter (fun j => j != i && (tokAt sent j).head == i)

/-- Does token `j` lie in the subtree of token `i` (i.e. is `i` an
ancestor-or-self of `j`)?  Follows head links upward with fuel; the root's
self-link terminates the walk. -/
def inSubtree (sent : List Token) : Nat → Nat → Nat → Bool
  | 0, _, _ => false
  | fuel + 1, i, j =>
    if j == i then true
    else
      let h := (tokAt sent j).head
      if h == j then false else inSubtree sent fuel i h

/-- Indices of the subtree of token `i`, in document order (mirrors
spaCy's `token.subtree`, which contains the token itself and all its
syntactic descendants). -/
def subtreeIdx (sent : List Token) (i : Nat) : List Nat :=
  (List.range sent.length).filter (fun j => inSubtree sent sent.length i j)

/-- The object string: the space-joined texts of the child's subtree
tokens whose dependency role is not `"det"`. -/
def objText (sent : List Token) (ci : Nat) : String :=
  String.intercalate " "
    (((subtreeIdx sent ci).filter (fun j => (tokAt sent j).dep_ != "det")).map
      (fun j => (tokAt sent j).text))

/-- One step of the entity-grouping loop:
`if ent.label_ not in entities: entities[ent.label_] = set()` followed by
`entities[ent.label_].add(ent.text)`.  The Python dict is modelled as an
insertion-ordered association list; the per-label set is modelled as a
duplicate-free list (membership is what the claims depend on). -/
def dictInsertName (m : List (String × List String)) (label txt : String) :
    List (String × List String) :=
  match m with
  | [] => [(label, [txt])]
  | (k, v) :: rest =>
    if k = label then (k, if v.contains txt then v else v ++ [txt]) :: rest
    else (k, v) :: dictInsertName rest label txt

/-- The entity-extraction loop over `doc.ents`. -/
def buildEntities (ents : List Ent) : List (String × List String) :=
  ents.foldl (fun m e => dictInsertName m e.label_ e.text) []

/-- The relation-extraction loops of `extract_entities_and_relations`:
for each sentence, for each token with dependency role `nsubj` or
`nsubjpass`, for each of its direct children with role `attr`, `acomp` or
`dobj`, append the triple
`(token.text, child.lemma_.upper(), subtree text without determiners)`. -/
def extractRels (sents : List (List Token)) : List (String × String × String) :=
  sents.foldl
    (fun acc sent =>
      (List.range sent.length).foldl
        (fun acc2 i =>
          let t := tokAt sent i
          if t.dep_ == "nsubj" || t.dep_ == "nsubjpass" then
            (childrenIdx sent i).foldl
              (fun acc3 ci =>
                let c := tokAt sent ci
                if c.dep_ == "attr" || c.dep_ == "acomp" || c.dep_ == "dobj" then
                  acc3 ++ [(t.text, pyUpper c.lemma_, objText sent ci)]
                else acc3)
              acc2
          else acc2)
        acc)
    []

/-- Result of the analyzer: the `{'entities': ..., 'relationships': ...}`
dictionary returned by `extract_entities_and_relations`. -/
structure AnalysisResult where
  entities : List (String × List String)
  relationships : List (String × String × String)
deriving Repr, DecidableEq

/-- The analyzer: `extract_entities_and_relations` applied to the parser's
output for the article text. -/
def extract_entities_and_relations (doc : Doc) : AnalysisResult :=
  AnalysisResult.mk (buildEntities doc.ents) (extractRels doc.sents)

/-- The candidate triple produced for one child index, if its dependency
role qualifies (compositional reformulation of the innermost loop). -/
def childTriple (sent : List Token) (subj : String) (ci : Nat) :
    Option (String × String × String) :=
  let c := tokAt sent ci
  if c.dep_ == "attr" || c.dep_ == "acomp" || c.dep_ == "dobj" then
    some (subj, pyUpper c.lemma_, objText sent ci)
  else none

/-- All triples produced for one token (empty unless it is a subject). -/
def tokenTriples (sent : List Token) (i : Nat) : List (String × String × String) :=
  let t := tokAt sent i
  if t.dep_ == "nsubj" || t.dep_ == "nsubjpass" then
    (childrenIdx sent i).filterMap (childTriple sent t.text)
  else []

/-- All triples of one sentence, in token order. -/
def relsOfSent (sent : List Token) : List (String × String × String) :=
  ((List.range sent.length).map (tokenTriples sent)).flatten

/-- The article record assembled by `scrape_article` (the publish date is
kept as an optional opaque string; `str(None)` is `"None"`). -/
structure ArticleData where
  title : String
  url : String
  publish_date : Option String
  authors : List String
deriving Repr, DecidableEq

/-- `str(article_data['publish_date'])`. -/
def strOfDate : Option String → String
  | none => "None"
  | some s => s

/-- A node of the graph store: internal id, label, properties. -/
structure GNode where
  id : Nat
  label : String
  props : List (String × String)
deriving Repr, DecidableEq

/-- A directed labeled edge between node ids. -/
structure GEdge where
  src : Nat
  label : String
  dst : Nat
deriving Repr, DecidableEq

/-- The state of the graph store, plus a counter supplying fresh node ids. -/
structure GraphStore where
  nodes : List GNode
  edges : List GEdge
  nextId : Nat
deriving Repr, DecidableEq

/-- One operation issued against the store. -/
inductive StoreOp where
  | delete_all
  | createNode (n : GNode)
  | createEdge (e : GEdge)
deriving Repr, DecidableEq

/-- Lookup in the `entity_nodes` dict (keys are unique by construction). -/
def lookupN (en : List (String × GNode)) (name : String) : Option GNode :=
  match en with
  | [] => none
  | (k, v) :: rest => if k = name then some v else lookupN rest name

/-- State threaded through the entity-node creation loop: the store, the
trace of operations issued so far in this phase, and the `entity_nodes`
dict. -/
structure EntState where
  g : GraphStore
  ops : List StoreOp
  en : List (String × GNode)
deriving Repr, DecidableEq

/-- The body of the entity loop for one `(entity_type, entity_name)` pair:
`if entity_name not in entity_nodes:` create the node, store it, and link
it to the article with a MENTIONS edge. -/
def pairStep (aid : Nat) (st : EntState) (p : String × String) : EntState :=
  if (lookupN st.en p.2).isSome then st
  else
    let node := GNode.mk st.g.nextId p.1 [("name", p.2)]
    let medge := GEdge.mk aid "MENTIONS" node.id
    EntState.mk
      (GraphStore.mk (st.g.nodes ++ [node]) (st.g.edges ++ [medge]) (st.g.nextId + 1))
      (st.ops ++ [StoreOp.createNode node, StoreOp.createEdge medge])
      (st.en ++ [(p.2, node)])

/-- Fold of `pairStep` over a flat list of `(type, name)` pairs. -/
def pairsFold (aid : Nat) (ps : List (String × String)) (st : EntState) : EntState :=
  ps.foldl (pairStep aid) st

/-- The nested entity loop of `store_in_graphdb` (lines 96–105): iterate
entity types, then names within each type. -/
def entityPhase (aid : Nat) (entities : List (String × List String))
    (g : GraphStore) : EntState :=
  entities.foldl
    (fun st tn => tn.2.foldl (fun st2 n => pairStep aid st2 (tn.1, n)) st)
    (EntState.mk g [] [])

/-- The `(type, name)` pairs of the entity mapping, flattened in
iteration order. -/
def flatPairs (ents : List (String × List String)) : List (String × String) :=
  (ents.map (fun tn => tn.2.map (fun n => (tn.1, n)))).flatten

/-- All surface names of the entity mapping, in iteration order. -/
def allEntityNames (ents : List (String × List String)) : List String :=
  (ents.map Prod.snd).flatten

/-- State threaded through the relation-edge loop. -/
structure RelState where
  g : GraphStore
  ops : List StoreOp
deriving Repr, DecidableEq

/-- The body of the relation loop for one triple:
`if subject in entity_nodes and obj in entity_nodes:` create the
predicate-labeled edge from the subject's node to the object's node. -/
def relStep (en : List (String × GNode)) (st : RelState)
    (t : String × String × String) : RelState :=
  match lookupN en t.1, lookupN en t.2.2 with
  | some sn, some on2 =>
    let edge := GEdge.mk sn.id t.2.1 on2.id
    RelState.mk
      (GraphStore.mk st.g.nodes (st.g.edges ++ [edge]) st.g.nextId)
      (st.ops ++ [StoreOp.createEdge edge])
  | _, _ => st

/-- The relation loop of `store_in_graphdb` (lines 107–116). -/
def relationPhase (en : List (String × GNode))
    (rels : List (String × String × String)) (g : GraphStore) : RelState :=
  rels.foldl (relStep en) (RelState.mk g [])

/-- The edge a single triple gives rise to, if both of its endpoints
resolve in the `entity_nodes` dict. -/
def edgeOfTriple (en : List (String × GNode)) (t : String × String × String) :
    Option GEdge :=
  match lookupN en t.1, lookupN en t.2.2 with
  | some sn, some on2 => some (GEdge.mk sn.id t.2.1 on2.id)
  | _, _ => none

/-- The `Node("Article", name=..., url=..., publish_date=..., authors=...)`
record. -/
def mkArticleNode (a : ArticleData) (id : Nat) : GNode :=
  GNode.mk id "Article"
    [("name", a.title), ("url", a.url),
     ("publish_date", strOfDate a.publish_date),
     ("authors", String.intercalate ", " a.authors)]

/-- Result of a materialization run: the final store, the trace of store
operations issued, and the two counts the function reports
(`len(entity_nodes)` and `len(entity_data['relationships'])`). -/
structure StoreResult where
  store : GraphStore
  ops : List StoreOp
  entity_count : Nat
  relationship_count : Nat
deriving Repr, DecidableEq

/-- The materializer `store_in_graphdb`: clear the store, create the
article node, create entity nodes with MENTIONS edges, create relation
edges, and report the two counts printed at the end. -/
def store_in_graphdb (article_data : ArticleData) (entity_data : AnalysisResult)
    (g : GraphStore) : StoreResult :=
  let g1 := GraphStore.mk [] [] g.nextId
  let articleNode := mkArticleNode article_data g1.nextId
  let g2 := GraphStore.mk (g1.nodes ++ [articleNode]) g1.edges (g1.nextId + 1)
  let est := entityPhase articleNode.id entity_data.entities g2
  let rst := relationPhase est.en entity_data.relationships est.g
  StoreResult.mk rst.g
    (StoreOp.delete_all :: (StoreOp.createNode articleNode :: est.ops) ++ rst.ops)
    est.en.length
    entity_data.relationships.length

/-- The `entity_nodes` dict as produced by a given run of
`store_in_graphdb` (projection of the run's entity phase). -/
def entityMapOf (a : ArticleData) (e : AnalysisResult) (g : GraphStore) :
    List (String × GNode) :=
  (entityPhase g.nextId e.entities
    (GraphStore.mk [mkArticleNode a g.nextId] [] (g.nextId + 1))).en

/-- The entity nodes of a store that carry exactly the property
`name = name` (entity nodes have exactly this one property; the article
node has four and never matches). -/
def entityNodesNamed (g : GraphStore) (name : String) : List GNode :=
  g.nodes.filter (fun nd => nd.props == [("name", name)])

/-- Outcome of handling one line of input at the URL prompt. -/
inductive UrlAction where
  | quit
  | accept (url : String)
  | reprompt
deriving Repr, DecidableEq

/-- One iteration of the `get_article_url` loop body:
`url = input(...).strip()`, quit on `'q'` (case-insensitive), accept a URL
with an http(s) scheme, otherwise print the error and re-prompt. -/
def processInput (s : String) : UrlAction :=
  let url := pyStrip s
  if pyLower url = "q" then UrlAction.quit
  else if pyStartswith url "http://" || pyStartswith url "https://" then
    UrlAction.accept url
  else UrlAction.reprompt

/-- The `get_article_url` loop, driven by a list of input lines: `none`
means the input lines ran out while still re-prompting, `some none` is the
user quitting, `some (some url)` an accepted URL. -/
def get_article_url : List String → Option (Option String)
  | [] => none
  | s :: rest =>
    match processInput s with
    | UrlAction.quit => some none
    | UrlAction.accept u => some (some u)
    | UrlAction.reprompt => get_article_url rest

/-- The dependency parse stipulated by the specification's scenario for
"The company announced record profits.": `company` is the subject
(`nsubj`) and `announced` is its direct child with role `dobj`, carrying
`profits` (`dobj`) and `record` (`amod`) in its subtree. -/
def scenarioSent : List Token :=
  [Token.mk "The" "the" "det" 1,
   Token.mk "company" "company" "nsubj" 1,
   Token.mk "announced" "announce" "dobj" 1,
   Token.mk "record" "record" "amod" 4,
   Token.mk "profits" "profit" "dobj" 2,
   Token.mk "." "." "punct" 1]

/-- The scenario parse as a full parser output. -/
def scenarioDoc : Doc :=
  Doc.mk [] [scenarioSent]

/-- A fixed article record for concrete runs. -/
def articleEx : ArticleData :=
  ArticleData.mk "T" "http://example.com" none []

/-- An empty graph store. -/
def emptyStore : GraphStore :=
  GraphStore.mk [] [] 0

/-- The entity mapping of the specification's Acme scenario. -/
def acmeEntities : List (String × List String) :=
  [("ORG", ["Acme"]), ("PERSON", ["Jane Smith"])]

/-- Analyzer output of the Acme scenario: two entities and one triple
whose object, `"profits"`, is in no entity set. -/
def acmeResult : AnalysisResult :=
  AnalysisResult.mk acmeEntities [("Acme", "ANNOUNCE", "profits")]

/-- Analyzer output of the Apple scenario: the same surface name under
two different types, and no triples. -/
def appleResult : AnalysisResult :=
  AnalysisResult.mk [("ORG", ["Apple"]), ("PRODUCT", ["Apple"])] []

/-- Analyzer output where one triple resolves on both sides, so that a
relation edge is actually created. -/
def linkedResult : AnalysisResult :=
  AnalysisResult.mk [("ORG", ["Acme", "Bob"])] [("Acme", "LIKE", "Bob")]

/-! ## Structure of the relation-extraction loops -/

theorem foldl_acc_flatten {α β : Type} (f : List α → β → List α) (g : β → List α)
    (h : ∀ a b, f a b = a ++ g b) :
    ∀ (l : List β) (acc : List α), l.foldl f acc = acc ++ (l.map g).flatten := by
  intro l
  induction l with
  | nil => intro acc; simp
  | cons b t ih =>
    intro acc
    rw [List.foldl_cons, h, ih]
    simp [List.append_assoc]

theorem foldl_acc_filterMap {α β : Type} (f : List α → β → List α) (g : β → Option α)
    (h : ∀ a b, f a b = a ++ (g b).toList) :
    ∀ (l : List β) (acc : List α), l.foldl f acc = acc ++ l.filterMap g := by
  intro l
  induction l with
  | nil => intro acc; simp
  | cons b t ih =>
    intro acc
    rw [List.foldl_cons, h, ih, List.filterMap_cons]
    cases g b <;> simp

theorem child_fold_eq (sent : List Token) (subj : String) (cis : List Nat)
    (acc : List (String × String × String)) :
    cis.foldl
      (fun acc3 ci =>
        let c := tokAt sent ci
        if c.dep_ == "attr" || c.dep_ == "acomp" || c.dep_ == "dobj" then
          acc3 ++ [(subj, pyUpper c.lemma_, objText sent ci)]
        else acc3) acc
    = acc ++ cis.filterMap (childTriple sent subj) := by
  refine foldl_acc_filterMap _ _ ?_ cis acc
  intro a ci
  by_cases h : ((tokAt sent ci).dep_ == "attr" || (tokAt sent ci).dep_ == "acomp"
      || (tokAt sent ci).dep_ == "dobj") = true
  · simp [childTriple, h]
  · simp [childTriple, h]

theorem token_fold_eq (sent : List Token) (is : List Nat)
    (acc : List (String × String × String)) :
    is.foldl
      (fun acc2 i =>
        let t := tokAt sent i
        if t.dep_ == "nsubj" || t.dep_ == "nsubjpass" then
          (childrenIdx sent i).foldl
            (fun acc3 ci =>
              let c := tokAt sent ci
              if c.dep_ == "attr" || c.dep_ == "acomp" || c.dep_ == "dobj" then
                acc3 ++ [(t.text, pyUpper c.lemma_, objText sent ci)]
              else acc3)
            acc2
        else acc2) acc
    = acc ++ (is.map (tokenTriples sent)).flatten := by
  refine foldl_acc_flatten _ _ ?_ is acc
  intro a i
  by_cases h : ((tokAt sent i).dep_ == "nsubj" || (tokAt sent i).dep_ == "nsubjpass") = true
  · show (if (tokAt sent i).dep_ == "nsubj" || (tokAt sent i).dep_ == "nsubjpass" then
        (childrenIdx sent i).foldl _ a else a) = a ++ tokenTriples sent i
    rw [if_pos h, child_fold_eq]
    unfold tokenTriples
    rw [if_pos h]
  · show (if (tokAt sent i).dep_ == "nsubj" || (tokAt sent i).dep_ == "nsubjpass" then
        (childrenIdx sent i).foldl _ a else a) = a ++ tokenTriples sent i
    rw [if_neg h]
    unfold tokenTriples
    rw [if_neg h]
    simp

theorem extractRels_eq_flatten (sents : List (List Token)) :
    extractRels sents = (sents.map relsOfSent).flatten := by
  unfold extractRels
  rw [foldl_acc_flatten _ relsOfSent _ sents []]
  · simp
  · intro a sent
    rw [token_fold_eq]
    rfl

/-! ## C6: empty parser output -/

/-- Claim C6: for input text that is empty or parses to zero sentences
(for such input the parser produces no entity spans and no sentences),
`extract_entities_and_relations` returns an empty entity mapping and an
empty relation list; no failure is possible, the analyzer is total. -/
theorem analyzer_empty_on_empty_doc (d : Doc)
    (hents : d.ents = []) (hsents : d.sents = []) :
    extract_entities_and_relations d = AnalysisResult.mk [] [] := by
  unfold extract_entities_and_relations buildEntities extractRels
  rw [hents, hsents]
  rfl

/-- Witness for C6 at the parse of the empty text. -/
theorem analyzer_empty_on_empty_doc_witness :
    extract_entities_and_relations (Doc.mk [] []) = AnalysisResult.mk [] [] :=
  analyzer_empty_on_empty_doc (Doc.mk [] []) rfl rfl

/-! ## C8: determinism and output order of the relation list -/

/-- Claim C8: given identical parser output, two runs of the analyzer
produce identical relation lists; moreover the list is the concatenation,
in sentence order, of the per-sentence lists, each of which is the
concatenation in token order of the per-token triples. -/
theorem analyzer_deterministic_ordered (d1 d2 : Doc) (h : d1 = d2) :
    (extract_entities_and_relations d1).relationships
      = (extract_entities_and_relations d2).relationships
    ∧ (extract_entities_and_relations d1).relationships
      = (d1.sents.map relsOfSent).flatten := by
  constructor
  · rw [h]
  · exact extractRels_eq_flatten d1.sents

/-- Witness for C8 at the scenario parse. -/
theorem analyzer_deterministic_ordered_witness :
    (extract_entities_and_relations scenarioDoc).relationships
      = (extract_entities_and_relations scenarioDoc).relationships
    ∧ (extract_entities_and_relations scenarioDoc).relationships
      = (scenarioDoc.sents.map relsOfSent).flatten :=
  analyzer_deterministic_ordered scenarioDoc scenarioDoc rfl

/-! ## C4: the triple emitted for the scenario parse -/

/-- Counterexample to C4 as stated: on the scenario parse the emitted
object string also contains the child token's own text, because the
child's subtree contains the child itself; the triple
`("company", "ANNOUNCE", "record profits")` is not emitted. -/
theorem scenario_triple_cex :
    (extract_entities_and_relations scenarioDoc).relationships
      = [("company", "ANNOUNCE", "announced record profits")]
    ∧ ("company", "ANNOUNCE", "record profits")
        ∉ (extract_entities_and_relations scenarioDoc).relationships := by
  constructor
  · rfl
  · decide

/-- Claim C4 (amended): for every sentence and every token with role
`nsubj`/`nsubjpass` having a direct child with role `attr`/`acomp`/`dobj`,
the analyzer emits the triple (subject token text, child lemma uppercased,
space-joined text of the child's subtree — which contains the child token
itself — without `det` tokens); on the scenario parse the emitted triple
is `("company", "ANNOUNCE", "announced record profits")`. -/
theorem relation_rule_and_scenario :
    (∀ d : Doc, (extract_entities_and_relations d).relationships
      = (d.sents.map (fun sent =>
          ((List.range sent.length).map (tokenTriples sent)).flatten)).flatten)
    ∧ (extract_entities_and_relations scenarioDoc).relationships
      = [("company", "ANNOUNCE", "announced record profits")] := by
  constructor
  · intro d
    exact extractRels_eq_flatten d.sents
  · decide

/-! ## Lookup lemmas for the `entity_nodes` dict -/

theorem lookupN_append (l1 l2 : List (String × GNode)) (name : String) :
    lookupN (l1 ++ l2) name
      = match lookupN l1 name with
        | some v => some v
        | none => lookupN l2 name := by
  induction l1 with
  | nil => simp [lookupN]
  | cons q rest ih =>
    by_cases h : q.1 = name
    · simp [lookupN, h]
    · simp [lookupN, h, ih]

theorem lookupN_isSome_iff (en : List (String × GNode)) (name : String) :
    (lookupN en name).isSome = true ↔ name ∈ en.map Prod.fst := by
  induction en with
  | nil => simp [lookupN]
  | cons q rest ih =>
    by_cases h : q.1 = name
    · simp [lookupN, h]
    · simp [lookupN, h, ih]
      intro he
      exact absurd he.symm h

theorem lookupN_mem (en : List (String × GNode)) (name : String) (v : GNode)
    (h : lookupN en name = some v) : (name, v) ∈ en := by
  induction en with
  | nil => simp [lookupN] at h
  | cons q rest ih =>
    by_cases hq : q.1 = name
    · rw [lookupN, if_pos hq] at h
      injection h with hv
      cases hq
      cases hv
      cases q
      exact List.mem_cons_self _ _
    · rw [lookupN, if_neg hq] at h
      right
      exact ih h

/-! ## Structure of the entity-node creation loop -/

theorem pairsFold_cons (aid : Nat) (p : String × String)
    (ps : List (String × String)) (st : EntState) :
    pairsFold aid (p :: ps) st = pairsFold aid ps (pairStep aid st p) := rfl

theorem pairStep_of_found (aid : Nat) (st : EntState) (p : String × String)
    (h : (lookupN st.en p.2).isSome = true) : pairStep aid st p = st := by
  unfold pairStep
  rw [if_pos h]

theorem pairStep_of_new (aid : Nat) (st : EntState) (p : String × String)
    (h : ¬ (lookupN st.en p.2).isSome = true) :
    pairStep aid st p
      = EntState.mk
          (GraphStore.mk
            (st.g.nodes ++ [GNode.mk st.g.nextId p.1 [("name", p.2)]])
            (st.g.edges ++ [GEdge.mk aid "MENTIONS" st.g.nextId])
            (st.g.nextId + 1))
          (st.ops ++ [StoreOp.createNode (GNode.mk st.g.nextId p.1 [("name", p.2)]),
                      StoreOp.createEdge (GEdge.mk aid "MENTIONS" st.g.nextId)])
          (st.en ++ [(p.2, GNode.mk st.g.nextId p.1 [("name", p.2)])]) := by
  unfold pairStep
  rw [if_neg h]

theorem pairsFold_spec (aid : Nat) :
    ∀ (ps : List (String × String)) (st : EntState),
      ∃ new : List (String × GNode),
        (pairsFold aid ps st).en = st.en ++ new ∧
        (pairsFold aid ps st).g.nodes = st.g.nodes ++ new.map Prod.snd ∧
        (pairsFold aid ps st).g.edges
          = st.g.edges ++ new.map (fun q => GEdge.mk aid "MENTIONS" q.2.id) ∧
        (pairsFold aid ps st).ops
          = st.ops ++ (new.map (fun q =>
              [StoreOp.createNode q.2,
               StoreOp.createEdge (GEdge.mk aid "MENTIONS" q.2.id)])).flatten ∧
        (∀ q ∈ new, q.2.props = [("name", q.1)]) ∧
        (∀ n, n ∈ (st.en ++ new).map Prod.fst
            ↔ (n ∈ st.en.map Prod.fst ∨ n ∈ ps.map Prod.snd)) ∧
        ((st.en.map Prod.fst).Nodup → ((st.en ++ new).map Prod.fst).Nodup) := by
  intro ps
  induction ps with
  | nil =>
    intro st
    refine ⟨[], by simp [pairsFold], by simp [pairsFold], by simp [pairsFold],
      by simp [pairsFold], by simp, by simp, by simp⟩
  | cons p ps ih =>
    intro st
    rw [pairsFold_cons]
    by_cases h : (lookupN st.en p.2).isSome = true
    · have hp2 : p.2 ∈ st.en.map Prod.fst := (lookupN_isSome_iff st.en p.2).mp h
      rw [pairStep_of_found aid st p h]
      obtain ⟨new, h1, h2, h3, h4, h5, h6, h7⟩ := ih st
      refine ⟨new, h1, h2, h3, h4, h5, ?_, h7⟩
      intro n
      rw [h6 n]
      simp only [List.map_cons, List.mem_cons]
      constructor
      · rintro (ha | hb)
        · exact Or.inl ha
        · exact Or.inr (Or.inr hb)
      · rintro (ha | he | hf)
        · exact Or.inl ha
        · rw [he]
          exact Or.inl hp2
        · exact Or.inr hf
    · have hp2 : p.2 ∉ st.en.map Prod.fst := by
        intro hmem
        exact h ((lookupN_isSome_iff st.en p.2).mpr hmem)
      rw [pairStep_of_new aid st p h]
      obtain ⟨new, h1, h2, h3, h4, h5, h6, h7⟩ :=
        ih (EntState.mk
          (GraphStore.mk
            (st.g.nodes ++ [GNode.mk st.g.nextId p.1 [("name", p.2)]])
            (st.g.edges ++ [GEdge.mk aid "MENTIONS" st.g.nextId])
            (st.g.nextId + 1))
          (st.ops ++ [StoreOp.createNode (GNode.mk st.g.nextId p.1 [("name", p.2)]),
                      StoreOp.createEdge (GEdge.mk aid "MENTIONS" st.g.nextId)])
          (st.en ++ [(p.2, GNode.mk st.g.nextId p.1 [("name", p.2)])]))
      refine ⟨(p.2, GNode.mk st.g.nextId p.1 [("name", p.2)]) :: new, ?_, ?_, ?_, ?_, ?_, ?_, ?_⟩
      · rw [h1]
        simp
      · rw [h2]
        simp
      · rw [h3]
        simp
      · rw [h4]
        simp
      · intro q hq
        rcases List.mem_cons.mp hq with hq0 | hq1
        · rw [hq0]
        · exact h5 q hq1
      · intro n
        have h6n := h6 n
        simp only [List.map_append, List.mem_append, List.map_cons, List.mem_cons,
          List.map_nil, List.mem_singleton] at h6n ⊢
        tauto
      · intro hnd
        have hmid : ((st.en ++ [(p.2, GNode.mk st.g.nextId p.1 [("name", p.2)])]).map
            Prod.fst).Nodup := by
          simp only [List.map_append, List.map_cons, List.map_nil]
          rw [List.nodup_append]
          refine ⟨hnd, by simp, ?_⟩
          intro x hx
          simp only [List.mem_cons, List.not_mem_nil, or_false]
          intro hxe
          rw [hxe] at hx
          exact hp2 hx
        have := h7 hmid
        simp only [List.map_append, List.map_cons, List.map_nil] at this ⊢
        rw [List.append_assoc] at this
        simpa using this

theorem pairsFold_lookup_label (aid : Nat) :
    ∀ (ps : List (String × String)) (st : EntState) (name : String),
      (lookupN (pairsFold aid ps st).en name).map GNode.label
        = match lookupN st.en name with
          | some v => some v.label
          | none => (ps.find? (fun q => q.2 == name)).map Prod.fst := by
  intro ps
  induction ps with
  | nil =>
    intro st name
    cases h : lookupN st.en name <;> simp [pairsFold, h]
  | cons p ps ih =>
    intro st name
    rw [pairsFold_cons]
    by_cases hp : (lookupN st.en p.2).isSome = true
    · rw [pairStep_of_found aid st p hp, ih st name]
      cases h : lookupN st.en name with
      | some v => rfl
      | none =>
        have hne : (p.2 == name) = false := by
          rw [beq_eq_false_iff_ne]
          intro he
          rw [he] at hp
          rw [h] at hp
          simp at hp
        simp [List.find?, hne]
    · rw [pairStep_of_new aid st p hp, ih _ name]
      rw [lookupN_append]
      cases h : lookupN st.en name with
      | some v => rfl
      | none =>
        by_cases he : p.2 = name
        · rw [he]
          simp [lookupN, List.find?, he]
        · have hne : (p.2 == name) = false := by
            rw [beq_eq_false_iff_ne]
            exact he
          simp [lookupN, he, List.find?, hne]

theorem entityPhase_eq_pairsFold (aid : Nat) (ents : List (String × List String))
    (g : GraphStore) :
    entityPhase aid ents g = pairsFold aid (flatPairs ents) (EntState.mk g [] []) := by
  suffices h : ∀ (es : List (String × List String)) (st : EntState),
      es.foldl (fun st2 tn => tn.2.foldl (fun st3 n => pairStep aid st3 (tn.1, n)) st2) st
        = pairsFold aid (flatPairs es) st by
    exact h ents (EntState.mk g [] [])
  intro es
  induction es with
  | nil =>
    intro st
    simp [flatPairs, pairsFold]
  | cons tn rest ih =>
    intro st
    rw [List.foldl_cons, ih]
    have hf : flatPairs (tn :: rest)
        = tn.2.map (fun n => (tn.1, n)) ++ flatPairs rest := by
      simp [flatPairs]
    rw [hf]
    unfold pairsFold
    rw [List.foldl_append]
    congr 1
    rw [List.foldl_map]

theorem flatPairs_map_snd (ents : List (String × List String)) :
    (flatPairs ents).map Prod.snd = allEntityNames ents := by
  unfold flatPairs allEntityNames
  induction ents with
  | nil => simp
  | cons tn rest ih => simp [ih, List.map_map, Function.comp]

/-! ## Structure of the relation-edge loop -/

theorem relFold_spec (en : List (String × GNode)) :
    ∀ (rels : List (String × String × String)) (st : RelState),
      rels.foldl (relStep en) st
        = RelState.mk
            (GraphStore.mk st.g.nodes
              (st.g.edges ++ rels.filterMap (edgeOfTriple en)) st.g.nextId)
            (st.ops ++ (rels.filterMap (edgeOfTriple en)).map StoreOp.createEdge) := by
  intro rels
  induction rels with
  | nil => intro st; simp
  | cons t rels ih =>
    intro st
    rw [List.foldl_cons, ih]
    cases h1 : lookupN en t.1 with
    | none => simp [relStep, edgeOfTriple, h1]
    | some sn =>
      cases h2 : lookupN en t.2.2 with
      | none => simp [relStep, edgeOfTriple, h1, h2]
      | some on2 => simp [relStep, edgeOfTriple, h1, h2]

/-! ## Unfolding `store_in_graphdb` into its phases -/

theorem store_in_graphdb_eq (a : ArticleData) (e : AnalysisResult) (g : GraphStore) :
    store_in_graphdb a e g
      = StoreResult.mk
          (relationPhase
            (entityPhase g.nextId e.entities
              (GraphStore.mk [mkArticleNode a g.nextId] [] (g.nextId + 1))).en
            e.relationships
            (entityPhase g.nextId e.entities
              (GraphStore.mk [mkArticleNode a g.nextId] [] (g.nextId + 1))).g).g
          ((StoreOp.delete_all ::
            StoreOp.createNode (mkArticleNode a g.nextId) ::
            (entityPhase g.nextId e.entities
              (GraphStore.mk [mkArticleNode a g.nextId] [] (g.nextId + 1))).ops)
            ++ (relationPhase
                (entityPhase g.nextId e.entities
                  (GraphStore.mk [mkArticleNode a g.nextId] [] (g.nextId + 1))).en
                e.relationships
                (entityPhase g.nextId e.entities
                  (GraphStore.mk [mkArticleNode a g.nextId] [] (g.nextId + 1))).g).ops)
          (entityPhase g.nextId e.entities
            (GraphStore.mk [mkArticleNode a g.nextId] [] (g.nextId + 1))).en.length
          e.relationships.length := rfl

/-! ## C3: an edge is created iff both endpoints resolve -/

/-- Claim C3: for every triple in the relation list, a directed
predicate-labeled edge from the subject's node to the object's node is
appended by the relation loop if and only if both the subject string and
the object string are keys of the flattened entity-name mapping; a triple
with either side absent contributes nothing. -/
theorem relation_edge_created_iff (en : List (String × GNode))
    (rels : List (String × String × String)) (g : GraphStore) :
    ((relationPhase en rels g).g.edges = g.edges ++ rels.filterMap (edgeOfTriple en))
    ∧ (∀ t : String × String × String,
        ((edgeOfTriple en t).isSome ↔
          ((lookupN en t.1).isSome ∧ (lookupN en t.2.2).isSome))
        ∧ (∀ ed, edgeOfTriple en t = some ed →
            ∃ sn on2, lookupN en t.1 = some sn ∧ lookupN en t.2.2 = some on2
              ∧ ed = GEdge.mk sn.id t.2.1 on2.id)) := by
  constructor
  · unfold relationPhase
    rw [relFold_spec]
  · intro t
    constructor
    · unfold edgeOfTriple
      cases h1 : lookupN en t.1 <;> cases h2 : lookupN en t.2.2 <;> simp
    · intro ed he
      unfold edgeOfTriple at he
      cases h1 : lookupN en t.1 with
      | none =>
        rw [h1] at he
        simp at he
      | some sn =>
        cases h2 : lookupN en t.2.2 with
        | none =>
          rw [h1, h2] at he
          simp at he
        | some on2 =>
          rw [h1, h2] at he
          simp at he
          exact ⟨sn, on2, rfl, rfl, he.symm⟩

/-- Witness for C3: the edge list appended on the Acme scenario run. -/
theorem relation_edge_created_iff_witness :
    (relationPhase (entityMapOf articleEx acmeResult emptyStore)
        acmeResult.relationships (GraphStore.mk [] [] 3)).g.edges
      = (GraphStore.mk [] [] 3).edges
        ++ acmeResult.relationships.filterMap
            (edgeOfTriple (entityMapOf articleEx acmeResult emptyStore)) :=
  (relation_edge_created_iff (entityMapOf articleEx acmeResult emptyStore)
    acmeResult.relationships (GraphStore.mk [] [] 3)).1

/-! ## C5: entity count equals number of distinct surface names -/

theorem nodup_length_eq_of_mem_iff (l1 l2 : List String)
    (h1 : l1.Nodup) (h2 : l2.Nodup) (h : ∀ x, x ∈ l1 ↔ x ∈ l2) :
    l1.length = l2.length := by
  have ht : l1.toFinset = l2.toFinset := by
    apply Finset.ext
    intro x
    simp only [List.mem_toFinset]
    exact h x
  rw [← List.toFinset_card_of_nodup h1, ← List.toFinset_card_of_nodup h2, ht]

theorem filter_named_length (name : String) :
    ∀ new : List (String × GNode),
      (∀ q ∈ new, q.2.props = [("name", q.1)]) →
      (new.map Prod.fst).Nodup →
      ((new.map Prod.snd).filter (fun nd => nd.props == [("name", name)])).length
        = if name ∈ new.map Prod.fst then 1 else 0 := by
  intro new
  induction new with
  | nil => intro _ _; simp
  | cons q rest ih =>
    intro hp hnd
    have hq : q.2.props = [("name", q.1)] := hp q (List.mem_cons_self _ _)
    have hrest : ∀ r ∈ rest, r.2.props = [("name", r.1)] :=
      fun r hr => hp r (List.mem_cons_of_mem _ hr)
    have hnd2 : (rest.map Prod.fst).Nodup := by
      rw [List.map_cons, List.nodup_cons] at hnd
      exact hnd.2
    have hq1 : q.1 ∉ rest.map Prod.fst := by
      rw [List.map_cons, List.nodup_cons] at hnd
      exact hnd.1
    by_cases he : q.1 = name
    · have hbeq : (q.2.props == [("name", name)]) = true := by
        rw [hq, he]
        exact beq_self_eq_true _
      have hnotin : name ∉ rest.map Prod.fst := by
        rw [← he]
        exact hq1
      rw [List.map_cons, List.filter_cons, hbeq]
      simp only [if_true]
      rw [List.length_cons, ih hrest hnd2, if_neg hnotin, List.map_cons]
      rw [if_pos (by rw [← he]; exact List.mem_cons_self _ _)]
    · have hbeq : (q.2.props == [("name", name)]) = false := by
        rw [hq, beq_eq_false_iff_ne]
        intro hcontr
        apply he
        have := List.head_eq_of_cons_eq hcontr
        exact (Prod.mk.injEq _ _ _ _).mp this |>.2
      rw [List.map_cons, List.filter_cons, hbeq]
      simp only [Bool.false_eq_true, if_false]
      rw [ih hrest hnd2, List.map_cons]
      by_cases hn : name ∈ rest.map Prod.fst
      · rw [if_pos hn, if_pos (List.mem_cons_of_mem _ hn)]
      · rw [if_neg hn, if_neg ?_]
        intro hc
        rcases List.mem_cons.mp hc with hc0 | hc1
        · exact he hc0.symm
        · exact hn hc1

/-- Claim C5: for every entity mapping, the reported entity count equals
the number of distinct surface names across all types, and exactly one
entity node is created per distinct name (and none for other names). -/
theorem entity_count_distinct_names (a : ArticleData) (e : AnalysisResult)
    (g : GraphStore) :
    (store_in_graphdb a e g).entity_count = (allEntityNames e.entities).dedup.length
    ∧ ∀ name : String,
        (entityNodesNamed (store_in_graphdb a e g).store name).length
          = if name ∈ allEntityNames e.entities then 1 else 0 := by
  obtain ⟨new, h1, h2, h3, h4, h5, h6, h7⟩ :=
    pairsFold_spec g.nextId (flatPairs e.entities)
      (EntState.mk (GraphStore.mk [mkArticleNode a g.nextId] [] (g.nextId + 1)) [] [])
  have hen : (entityPhase g.nextId e.entities
      (GraphStore.mk [mkArticleNode a g.nextId] [] (g.nextId + 1))).en = new := by
    rw [entityPhase_eq_pairsFold, h1]
    simp
  have hmem : ∀ n, n ∈ new.map Prod.fst ↔ n ∈ allEntityNames e.entities := by
    intro n
    have h6n := h6 n
    simp only [List.nil_append, List.map_nil, List.not_mem_nil, false_or] at h6n
    rw [flatPairs_map_snd] at h6n
    exact h6n
  have hnd : (new.map Prod.fst).Nodup := by
    have := h7 (by simp)
    simpa using this
  constructor
  · rw [store_in_graphdb_eq]
    show (entityPhase g.nextId e.entities
      (GraphStore.mk [mkArticleNode a g.nextId] [] (g.nextId + 1))).en.length = _
    rw [hen, ← List.length_map new Prod.fst]
    exact nodup_length_eq_of_mem_iff _ _ hnd (List.nodup_dedup _)
      (fun x => by rw [hmem x, List.mem_dedup])
  · intro name
    have hnodes : (store_in_graphdb a e g).store.nodes
        = mkArticleNode a g.nextId :: new.map Prod.snd := by
      rw [store_in_graphdb_eq]
      show (relationPhase _ e.relationships _).g.nodes = _
      unfold relationPhase
      rw [relFold_spec]
      show (entityPhase g.nextId e.entities
        (GraphStore.mk [mkArticleNode a g.nextId] [] (g.nextId + 1))).g.nodes = _
      rw [entityPhase_eq_pairsFold, h2]
      simp
    unfold entityNodesNamed
    rw [hnodes]
    have hart : ((mkArticleNode a g.nextId).props == [("name", name)]) = false := by
      rw [beq_eq_false_iff_ne]
      intro hcontr
      unfold mkArticleNode at hcontr
      simp at hcontr
    rw [List.filter_cons, hart]
    simp only [Bool.false_eq_true, if_false]
    rw [filter_named_length name new h5 hnd]
    by_cases hn : name ∈ allEntityNames e.entities
    · rw [if_pos ((hmem name).mpr hn), if_pos hn]
    · rw [if_neg (fun hc => hn ((hmem name).mp hc)), if_neg hn]

/-! ## C2: type of a surface name duplicated across entity types -/

/-- Counterexample to C2 as stated: with `"Apple"` under `"ORG"` first and
`"PRODUCT"` second, the single node created for `"Apple"` carries the type
of the pair processed FIRST (`"ORG"`), not the one processed last
(`"PRODUCT"`); the name is still counted once. -/
theorem entity_type_last_wins_cex :
    ((store_in_graphdb articleEx appleResult emptyStore).store.nodes.filter
        (fun nd => nd.props == [("name", "Apple")])).map GNode.label = ["ORG"]
    ∧ ((store_in_graphdb articleEx appleResult emptyStore).store.nodes.filter
        (fun nd => nd.props == [("name", "Apple")])).map GNode.label ≠ ["PRODUCT"]
    ∧ (store_in_graphdb articleEx appleResult emptyStore).entity_count = 1 := by
  refine ⟨by decide, by decide, by decide⟩

/-- Claim C2 (amended): when the same surface name appears under several
types, exactly one node is created for it, carrying the type of whichever
`(type, name)` pair is processed FIRST (the label of the node looked up by
name is the type of the first flattened pair with that name), and the keys
of the entity-node mapping are duplicate-free, so the name is counted once
in the entity count. -/
theorem entity_type_first_wins (aid : Nat) (ents : List (String × List String))
    (g : GraphStore) (name : String) :
    (lookupN (entityPhase aid ents g).en name).map GNode.label
      = ((flatPairs ents).find? (fun q => q.2 == name)).map Prod.fst
    ∧ ((entityPhase aid ents g).en.map Prod.fst).Nodup := by
  constructor
  · rw [entityPhase_eq_pairsFold, pairsFold_lookup_label]
    rfl
  · rw [entityPhase_eq_pairsFold]
    obtain ⟨new, h1, _, _, _, _, _, h7⟩ :=
      pairsFold_spec aid (flatPairs ents) (EntState.mk g [] [])
    rw [h1]
    exact h7 (by simp)

/-! ## C7: endpoints of relation edges are MENTIONS targets -/

/-- Claim C7: every relation edge created by a materialization run has
both of its endpoint nodes linked from the Article node (whose id is
`g.nextId`) by a MENTIONS edge present in the final store. -/
theorem relation_endpoints_mentioned (a : ArticleData) (e : AnalysisResult)
    (g : GraphStore) :
    ∀ edge ∈ e.relationships.filterMap (edgeOfTriple (entityMapOf a e g)),
      GEdge.mk g.nextId "MENTIONS" edge.src ∈ (store_in_graphdb a e g).store.edges
      ∧ GEdge.mk g.nextId "MENTIONS" edge.dst ∈ (store_in_graphdb a e g).store.edges := by
  intro edge hedge
  obtain ⟨new, h1, h2, h3, h4, h5, h6, h7⟩ :=
    pairsFold_spec g.nextId (flatPairs e.entities)
      (EntState.mk (GraphStore.mk [mkArticleNode a g.nextId] [] (g.nextId + 1)) [] [])
  have hen : entityMapOf a e g = new := by
    unfold entityMapOf
    rw [entityPhase_eq_pairsFold, h1]
    simp
  have hedges : (store_in_graphdb a e g).store.edges
      = new.map (fun q => GEdge.mk g.nextId "MENTIONS" q.2.id)
        ++ e.relationships.filterMap (edgeOfTriple (entityMapOf a e g)) := by
    rw [store_in_graphdb_eq]
    show (relationPhase (entityMapOf a e g) e.relationships
      (entityPhase g.nextId e.entities
        (GraphStore.mk [mkArticleNode a g.nextId] [] (g.nextId + 1))).g).g.edges = _
    unfold relationPhase
    rw [relFold_spec]
    show (entityPhase g.nextId e.entities
      (GraphStore.mk [mkArticleNode a g.nextId] [] (g.nextId + 1))).g.edges ++ _ = _
    rw [entityPhase_eq_pairsFold, h3]
    simp
  obtain ⟨t, ht, het⟩ := List.mem_filterMap.mp hedge
  have hinv : ∃ sn on2, lookupN (entityMapOf a e g) t.1 = some sn
      ∧ lookupN (entityMapOf a e g) t.2.2 = some on2
      ∧ edge = GEdge.mk sn.id t.2.1 on2.id :=
    ((relation_edge_created_iff (entityMapOf a e g) e.relationships
      (GraphStore.mk [] [] 0)).2 t).2 edge het
  obtain ⟨sn, on2, hs, ho, hef⟩ := hinv
  have hsrc : GEdge.mk g.nextId "MENTIONS" edge.src
      ∈ new.map (fun q => GEdge.mk g.nextId "MENTIONS" q.2.id) := by
    have hmem : (t.1, sn) ∈ new := by
      rw [← hen]
      exact lookupN_mem _ _ _ hs
    have := List.mem_map_of_mem (fun q => GEdge.mk g.nextId "MENTIONS" q.2.id) hmem
    rw [hef]
    exact this
  have hdst : GEdge.mk g.nextId "MENTIONS" edge.dst
      ∈ new.map (fun q => GEdge.mk g.nextId "MENTIONS" q.2.id) := by
    have hmem : (t.2.2, on2) ∈ new := by
      rw [← hen]
      exact lookupN_mem _ _ _ ho
    have := List.mem_map_of_mem (fun q => GEdge.mk g.nextId "MENTIONS" q.2.id) hmem
    rw [hef]
    exact this
  rw [hedges]
  exact ⟨List.mem_append_left _ hsrc, List.mem_append_left _ hdst⟩

/-- Witness for C7: on a run that creates the relation edge
`Acme -LIKE-> Bob`, both endpoint nodes carry MENTIONS edges from the
article node. -/
theorem relation_endpoints_mentioned_witness :
    GEdge.mk 0 "MENTIONS" 1 ∈ (store_in_graphdb articleEx linkedResult emptyStore).store.edges
    ∧ GEdge.mk 0 "MENTIONS" 2 ∈ (store_in_graphdb articleEx linkedResult emptyStore).store.edges :=
  relation_endpoints_mentioned articleEx linkedResult emptyStore
    (GEdge.mk 1 "LIKE" 2) (by decide)

/-! ## C9: the destructive clear precedes every write -/

/-- Claim C9: every materialization run issues the destructive
`delete_all` first, before any node or edge creation (no `delete_all`
occurs later in the trace), and the result of the run does not depend on
the prior contents of the store — re-running wipes and recreates. -/
theorem materialize_clears_first (a : ArticleData) (e : AnalysisResult)
    (g1 g2 : GraphStore) (h : g1.nextId = g2.nextId) :
    store_in_graphdb a e g1 = store_in_graphdb a e g2
    ∧ ∃ rest, (store_in_graphdb a e g1).ops = StoreOp.delete_all :: rest
        ∧ ∀ op ∈ rest, op ≠ StoreOp.delete_all := by
  constructor
  · have key : ∀ gs : GraphStore,
        store_in_graphdb a e gs = store_in_graphdb a e (GraphStore.mk [] [] gs.nextId) :=
      fun gs => rfl
    rw [key g1, key g2, h]
  · obtain ⟨new, h1, h2, h3, h4, h5, h6, h7⟩ :=
      pairsFold_spec g1.nextId (flatPairs e.entities)
        (EntState.mk (GraphStore.mk [mkArticleNode a g1.nextId] [] (g1.nextId + 1)) [] [])
    refine ⟨(StoreOp.createNode (mkArticleNode a g1.nextId) ::
        (entityPhase g1.nextId e.entities
          (GraphStore.mk [mkArticleNode a g1.nextId] [] (g1.nextId + 1))).ops)
      ++ (relationPhase
          (entityPhase g1.nextId e.entities
            (GraphStore.mk [mkArticleNode a g1.nextId] [] (g1.nextId + 1))).en
          e.relationships
          (entityPhase g1.nextId e.entities
            (GraphStore.mk [mkArticleNode a g1.nextId] [] (g1.nextId + 1))).g).ops, ?_, ?_⟩
    · rw [store_in_graphdb_eq]
      rw [List.cons_append]
    · intro op hop
      rcases List.mem_append.mp hop with hl | hr
      · rcases List.mem_cons.mp hl with h0 | hestops
        · rw [h0]
          simp
        · have hio : (entityPhase g1.nextId e.entities
              (GraphStore.mk [mkArticleNode a g1.nextId] [] (g1.nextId + 1))).ops
              = (new.map (fun q =>
                  [StoreOp.createNode q.2,
                   StoreOp.createEdge (GEdge.mk g1.nextId "MENTIONS" q.2.id)])).flatten := by
            rw [entityPhase_eq_pairsFold, h4]
            simp
          rw [hio] at hestops
          obtain ⟨l, hlmem, hopl⟩ := List.mem_flatten.mp hestops
          obtain ⟨q, hq, hlq⟩ := List.mem_map.mp hlmem
          rw [← hlq] at hopl
          rcases List.mem_cons.mp hopl with h0 | h1x
          · rw [h0]
            simp
          · rcases List.mem_cons.mp h1x with h0 | h0
            · rw [h0]
              simp
            · simp at h0
      · have hro : (relationPhase
            (entityPhase g1.nextId e.entities
              (GraphStore.mk [mkArticleNode a g1.nextId] [] (g1.nextId + 1))).en
            e.relationships
            (entityPhase g1.nextId e.entities
              (GraphStore.mk [mkArticleNode a g1.nextId] [] (g1.nextId + 1))).g).ops
            = (e.relationships.filterMap (edgeOfTriple
                (entityPhase g1.nextId e.entities
                  (GraphStore.mk [mkArticleNode a g1.nextId] [] (g1.nextId + 1))).en)).map
              StoreOp.createEdge := by
          unfold relationPhase
          rw [relFold_spec]
          simp
        rw [hro] at hr
        obtain ⟨ed, hed, hopc⟩ := List.mem_map.mp hr
        rw [← hopc]
        simp

/-- Witness for C9: a run on a store holding junk data equals the run on
an empty store with the same id counter, and its trace starts with the
destructive clear. -/
theorem materialize_clears_first_witness :
    store_in_graphdb articleEx acmeResult
        (GraphStore.mk [GNode.mk 0 "Junk" []] [GEdge.mk 0 "X" 0] 5)
      = store_in_graphdb articleEx acmeResult (GraphStore.mk [] [] 5)
    ∧ ∃ rest, (store_in_graphdb articleEx acmeResult
        (GraphStore.mk [GNode.mk 0 "Junk" []] [GEdge.mk 0 "X" 0] 5)).ops
        = StoreOp.delete_all :: rest
        ∧ ∀ op ∈ rest, op ≠ StoreOp.delete_all :=
  materialize_clears_first articleEx acmeResult
    (GraphStore.mk [GNode.mk 0 "Junk" []] [GEdge.mk 0 "X" 0] 5)
    (GraphStore.mk [] [] 5) rfl

/-! ## C1: the reported relationship count -/

/-- Claim C1 evaluated on the specification's own scenario: on entities
`{ORG: [Acme], PERSON: [Jane Smith]}` and the single triple
`(Acme, ANNOUNCE, profits)` with `profits` in no entity set, the run
creates 2 entity nodes and no entity-to-entity edge, yet the reported
relationship count is 1 (the length of the input relation list), not 0 as
the claim states: the code counts all triples, including skipped ones. -/
theorem reported_relationship_count_mismatch :
    (store_in_graphdb articleEx acmeResult emptyStore).relationship_count = 1
    ∧ ((store_in_graphdb articleEx acmeResult emptyStore).store.edges.filter
        (fun ed => ed.label != "MENTIONS")) = []
    ∧ (store_in_graphdb articleEx acmeResult emptyStore).entity_count = 2 := by
  refine ⟨by decide, by decide, by decide⟩

/-! ## C10: the URL prompt's exit sentinel and re-prompt behavior -/

/-- Claim C10: one prompt iteration quits exactly when the input, after
stripping surrounding whitespace and lowercasing, is `"q"`; any other
input whose stripped form starts with neither `http://` nor `https://`
re-prompts (the loop continues with the remaining inputs and no URL is
returned for this line). -/
theorem url_sentinel_trim_case_insensitive (s : String) :
    (processInput s = UrlAction.quit ↔ pyLower (pyStrip s) = "q")
    ∧ (∀ rest : List String, pyLower (pyStrip s) = "q" →
        get_article_url (s :: rest) = some none)
    ∧ (pyLower (pyStrip s) ≠ "q" →
        pyStartswith (pyStrip s) "http://" = false →
        pyStartswith (pyStrip s) "https://" = false →
        processInput s = UrlAction.reprompt
        ∧ ∀ rest : List String, get_article_url (s :: rest) = get_article_url rest) := by
  refine ⟨?_, ?_, ?_⟩
  · by_cases hq : pyLower (pyStrip s) = "q"
    · constructor
      · intro _
        exact hq
      · intro _
        unfold processInput
        rw [if_pos hq]
    · constructor
      · intro hcontr
        unfold processInput at hcontr
        rw [if_neg hq] at hcontr
        by_cases hh : (pyStartswith (pyStrip s) "http://"
            || pyStartswith (pyStrip s) "https://") = true
        · rw [if_pos hh] at hcontr
          cases hcontr
        · rw [if_neg hh] at hcontr
          cases hcontr
      · intro hcontr
        exact absurd hcontr hq
  · intro rest hq
    have hp : processInput s = UrlAction.quit := by
      unfold processInput
      rw [if_pos hq]
    unfold get_article_url
    rw [hp]
  · intro hq h1 h2
    have hh : (pyStartswith (pyStrip s) "http://"
        || pyStartswith (pyStrip s) "https://") = false := by
      rw [h1, h2]
      rfl
    have hp : processInput s = UrlAction.reprompt := by
      unfold processInput
      rw [if_neg hq, if_neg (by rw [hh]; exact Bool.false_ne_true)]
    constructor
    · exact hp
    · intro rest
      show (match processInput s with
        | UrlAction.quit => some none
        | UrlAction.accept u => some (some u)
        | UrlAction.reprompt => get_article_url rest) = get_article_url rest
      rw [hp]

/-- Witness for C10: `" q "` and `"Q"` quit, `"banana"` re-prompts and
the loop then quits on the following `"Q"` input. -/
theorem url_sentinel_trim_case_insensitive_witness :
    processInput " q " = UrlAction.quit
    ∧ processInput "Q" = UrlAction.quit
    ∧ processInput "banana" = UrlAction.reprompt
    ∧ get_article_url ["banana", "Q"] = some none := by
  refine ⟨?_, ?_, ?_, ?_⟩
  · exact (url_sentinel_trim_case_insensitive " q ").1.mpr (by decide)
  · exact (url_sentinel_trim_case_insensitive "Q").1.mpr (by decide)
  · exact ((url_sentinel_trim_case_insensitive "banana").2.2 (by decide)
      (by decide) (by decide)).1
  · have h1 := ((url_sentinel_trim_case_insensitive "banana").2.2 (by decide)
      (by decide) (by decide)).2 ["Q"]
    have h2 := (url_sentinel_trim_case_insensitive "Q").2.1 [] (by decide)
    rw [h1, h2]
